import Mathlib

/-!
Verification of the in-browser job search and retrieval engine
(`OptimizedJobsDataService` in `src/lib/optimized-jobs-data-service.ts`).

The TypeScript service is shallowly embedded: JavaScript numbers that are
only ever tested for truthiness / `isNaN` and passed through are modelled
by `JSNum` (a rational or NaN); JavaScript strings are Lean `String`s;
`Map`s are association lists; the wall clock is an explicit `now : Nat`
parameter; the memoized data-load promise is modelled by its settled
outcome.  Every definition follows the corresponding TypeScript line by
line; spec-side characterizations used for refinement statements are
clearly marked as such.
-/

set_option maxHeartbeats 1000000

namespace JobBoard

/-- A JavaScript number as used by the service: either NaN or an actual
(rational) numeric value.  The service never does arithmetic on
coordinates; it only tests truthiness and `isNaN` and copies values. -/
inductive JSNum where
  | nan : JSNum
  | num : ℚ → JSNum
deriving DecidableEq, Repr

/-- JavaScript truthiness of a number: `0`, `-0` and `NaN` are falsy. -/
def jsTruthy : JSNum → Bool
  | .nan => false
  | .num q => q != 0

/-- JavaScript `isNaN` on a number. -/
def jsIsNaN : JSNum → Bool
  | .nan => true
  | .num _ => false

/-- JavaScript `s || d` on strings: the empty string is falsy. -/
def jsOrS (s d : String) : String :=
  if s = "" then d else s

/-- Embedding of the `Location` interface of the service
(`city`, `region`, `country`, `address`, `postal_code` strings,
`latitude`/`longitude` numbers; `region`/`country` may be null). -/
structure Location where
  city : String
  region : Option String
  country : Option String
  address : String
  postal_code : String
  latitude : JSNum
  longitude : JSNum
deriving DecidableEq, Repr

/-- Embedding of the `Job` interface of the service. -/
structure Job where
  id : String
  title : String
  company : String
  locations : List Location
  workload_min_percent : Option JSNum
  workload_max_percent : Option JSNum
  employment_types : List String
  categories : List String
  language : Option String
  posted_at : Option String
  valid_until : Option String
  link : Option String
  apply_link : Option String
  source_file : String
deriving DecidableEq, Repr

/-- Embedding of the `TransformedJob` interface (the DisplayJob projection). -/
structure TransformedJob where
  id : String
  originalId : String
  title : String
  company : String
  location : String
  latitude : JSNum
  longitude : JSNum
  link : Option String
  salary : String
  tags : List String
  logo : String
deriving DecidableEq, Repr

/-- Fuel-indexed accumulator for `decimalRepr`; emits the decimal digits of
`n`, most significant first.  Fuel `n` itself is always sufficient. -/
def toDecimalAux : Nat → Nat → List Char
  | 0, _ => []
  | fuel + 1, n => if n = 0 then [] else toDecimalAux fuel (n / 10) ++ [Nat.digitChar (n % 10)]

/-- Models JavaScript template-literal rendering of the nonnegative integer
counters and indices used in id construction (usual decimal notation). -/
def decimalRepr (n : Nat) : String :=
  if n = 0 then "0" else String.mk (toDecimalAux n n)

/-- The candidate id tried at step `n` of the service's id-disambiguation
loop: the base id first, then `{base}-{counter}` for counter 1, 2, …. -/
def candidateId (base : String) : Nat → String
  | 0 => base
  | n + 1 => base ++ "-" ++ decimalRepr (n + 1)

/-- The id-disambiguation `while` loop of `transformJobsToTransformedJobs`:
starting from `base`, append `-{counter}` with increasing counter until the
id is not in `usedIds`.  The loop always terminates within
`used.length + 1` steps (some candidate must be fresh), so the bounded
search below is an exact model; the default branch is unreachable. -/
def freshId (base : String) (used : List String) : String :=
  match (List.range (used.length + 1)).find? (fun n => !(used.contains (candidateId base n))) with
  | some n => candidateId base n
  | none => candidateId base (used.length + 1)

/-- The location-validity filter of `transformJobsToTransformedJobs`:
`loc.latitude && loc.longitude && !isNaN(loc.latitude) && !isNaN(loc.longitude)`. -/
def isValidLoc (loc : Location) : Bool :=
  jsTruthy loc.latitude && jsTruthy loc.longitude &&
    !(jsIsNaN loc.latitude) && !(jsIsNaN loc.longitude)

/-- The placeholder DisplayJob emitted for a job with no (or no valid)
locations, with the given disambiguated id. -/
def placeholderJob (job : Job) (uid : String) : TransformedJob where
  id := uid
  originalId := job.id
  title := jsOrS job.title "No Title"
  company := jsOrS job.company "Unknown Company"
  location := "Location not specified"
  latitude := .num 0
  longitude := .num 0
  link := job.link
  salary := "Salary not specified"
  tags := job.categories
  logo := "/globe.svg"

/-- The DisplayJob emitted for one valid location of a job, with the given
disambiguated id. -/
def locationJob (job : Job) (loc : Location) (uid : String) : TransformedJob where
  id := uid
  originalId := job.id
  title := jsOrS job.title "No Title"
  company := jsOrS job.company "Unknown Company"
  location :=
    let city := jsOrS loc.city "Location not specified"
    if loc.address = "" then city else loc.address ++ ", " ++ city
  latitude := loc.latitude
  longitude := loc.longitude
  link := job.link
  salary := "Salary not specified"
  tags := job.categories
  logo := "/globe.svg"

/-- The inner `for (index …)` loop over the valid locations of one job:
emits one DisplayJob per valid location with base id
`{job.id}-{index}-{jobIndex}`, threading the `usedIds` set. -/
def processLocs (job : Job) (jobIndex : Nat) :
    List Location → Nat → List String → List TransformedJob × List String
  | [], _, used => ([], used)
  | loc :: rest, index, used =>
    let uid := freshId (job.id ++ "-" ++ decimalRepr index ++ "-" ++ decimalRepr jobIndex) used
    let out := processLocs job jobIndex rest (index + 1) (uid :: used)
    (locationJob job loc uid :: out.1, out.2)

/-- The per-job body of the main loop of `transformJobsToTransformedJobs`:
no locations → one placeholder with base `{id}-no-location`; no valid
locations → one placeholder with base `{id}-invalid-location`; otherwise
one DisplayJob per valid location. -/
def processJob (job : Job) (jobIndex : Nat) (used : List String) :
    List TransformedJob × List String :=
  if job.locations.isEmpty then
    let uid := freshId (job.id ++ "-no-location") used
    ([placeholderJob job uid], uid :: used)
  else
    let valid := job.locations.filter isValidLoc
    if valid.isEmpty then
      let uid := freshId (job.id ++ "-invalid-location") used
      ([placeholderJob job uid], uid :: used)
    else
      processLocs job jobIndex valid 0 used

/-- The main `for (jobIndex …)` loop of `transformJobsToTransformedJobs`,
threading the `usedIds` set across jobs. -/
def processJobs : List Job → Nat → List String → List TransformedJob × List String
  | [], _, used => ([], used)
  | job :: rest, jobIndex, used =>
    let out := processJob job jobIndex used
    let outRest := processJobs rest (jobIndex + 1) out.2
    (out.1 ++ outRest.1, outRest.2)

/-- The final duplicate filter of `transformJobsToTransformedJobs`:
`results.filter((job, index, self) => index === self.findIndex(j => j.id === job.id))`,
keeping only the first occurrence of each id. -/
def keepFirstById (l : List TransformedJob) : List TransformedJob :=
  (l.enum.filter (fun p => l.findIdx (fun j => j.id == p.2.id) == p.1)).map Prod.snd

/-- JavaScript `jobs.slice(offset, offset + limit)` under the service's
`limit ? … : jobs.slice(offset)` pattern (a missing or zero limit is falsy
and means "no limit"). -/
def jsSlice {α : Type} (l : List α) (offset : Nat) (limit : Option Nat) : List α :=
  match limit with
  | some (lim + 1) => (l.drop offset).take (lim + 1)
  | _ => l.drop offset

/-- Embedding of the memo-miss computation of
`transformJobsToTransformedJobs(jobs, offset, limit)`: the main loop plus
the final duplicate filter.  The memoization layer that the method runs
first is `transformWithCache` below; its key
(`getTransformationCacheKey`) is NOT injective on the batch, so the full
method can replay a different batch's output — see C2. -/
def transformJobsToTransformedJobs (jobs : List Job) (offset : Nat) (limit : Option Nat) :
    List TransformedJob :=
  keepFirstById (processJobs (jsSlice jobs offset limit) 0 []).1

/-- Lexicographic comparison of char lists by code point — the order
JavaScript's default `Array.sort()` uses on strings (UTF-16 code units;
identical on the characters occurring here). -/
def charListLtB : List Char → List Char → Bool
  | [], [] => false
  | [], _ :: _ => true
  | _ :: _, [] => false
  | a :: as, b :: bs =>
    if a.toNat < b.toNat then true
    else if b.toNat < a.toNat then false
    else charListLtB as bs

/-- JavaScript `a < b` on strings. -/
def strLtB (a b : String) : Bool :=
  charListLtB a.data b.data

/-- Insert a string into an already sorted list. -/
def insertSorted (s : String) : List String → List String
  | [] => [s]
  | t :: rest => if strLtB s t then s :: t :: rest else t :: insertSorted s rest

/-- JavaScript `Array.sort()` on an array of strings (default string
order); insertion sort — any sorting algorithm yields the same list. -/
def sortStrings : List String → List String
  | [] => []
  | s :: rest => insertSorted s (sortStrings rest)

/-- Embedding of `getTransformationCacheKey(jobs, offset, limit)`: the ids
of the sliced batch, sorted and comma-joined, then `-{offset}-{limit}`
with a missing (or zero, falsy) limit printed as "all".  Note the key
depends only on the id multiset of the slice, not on the records
themselves. -/
def getTransformationCacheKey (jobs : List Job) (offset : Nat) (limit : Option Nat) :
    String :=
  let jobIds := String.intercalate "," (sortStrings ((jsSlice jobs offset limit).map Job.id))
  jobIds ++ "-" ++ decimalRepr offset ++ "-"
    ++ (match limit with
        | some (lim + 1) => decimalRepr (lim + 1)
        | _ => "all")

/-- The `transformationCache : Map<string, TransformedJob[]>` of the
service, modelled as an association list. -/
structure TransformState where
  transformationCache : List (String × List TransformedJob)
deriving DecidableEq, Repr

/-- A service whose transformation cache is empty (fresh instance, or one
on which `close()` was just called). -/
def emptyTransformState : TransformState := ⟨[]⟩

/-- Embedding of the full `transformJobsToTransformedJobs(jobs, offset,
limit)` method including its memoization: a key hit is replayed verbatim;
a miss computes the pure transformation and stores it under the key. -/
def transformWithCache (st : TransformState) (jobs : List Job) (offset : Nat)
    (limit : Option Nat) : List TransformedJob × TransformState :=
  let cacheKey := getTransformationCacheKey jobs offset limit
  match List.lookup cacheKey st.transformationCache with
  | some cached => (cached, st)
  | none =>
    let finalResults := transformJobsToTransformedJobs jobs offset limit
    (finalResults,
     ⟨(cacheKey, finalResults)
        :: st.transformationCache.filter (fun p => !(p.1 == cacheKey))⟩)

/-- Embedding of `getAllJobs(limit, offset)` once the service is
initialized with record set `jobs`. -/
def getAllJobs (jobs : List Job) (limit : Option Nat) (offset : Nat) : List TransformedJob :=
  transformJobsToTransformedJobs jobs offset limit

/-- JavaScript `s.toLowerCase()` (character-wise lower-casing). -/
def jsToLower (s : String) : String :=
  String.mk (s.data.map Char.toLower)

/-- JavaScript `s.trim()`: strip leading and trailing whitespace. -/
def jsTrim (s : String) : String :=
  String.mk (((s.data.dropWhile Char.isWhitespace).reverse.dropWhile
    Char.isWhitespace).reverse)

/-- JavaScript `hay.includes(sub)`: substring containment. -/
def strIncludes (hay sub : String) : Bool :=
  decide (sub.data <:+: hay.data)

/-- The per-job predicate of `getJobsByLocation`: the job has at least one
location whose city or address (lower-cased) contains the (lower-cased)
location name as a substring. -/
def jobMatchesLocation (locationLower : String) (job : Job) : Bool :=
  if job.locations.isEmpty then false
  else job.locations.any (fun loc =>
    strIncludes (jsToLower loc.city) locationLower || strIncludes (jsToLower loc.address) locationLower)

/-- Embedding of `getJobsByLocation(locationName, limit, offset)` once the
service is initialized with record set `jobs`. -/
def getJobsByLocation (jobs : List Job) (locationName : String) (limit : Option Nat)
    (offset : Nat) : List TransformedJob :=
  transformJobsToTransformedJobs (jobs.filter (jobMatchesLocation (jsToLower locationName)))
    offset limit

/-- Embedding of `getCacheKey(query, locationName?)`:
`locationName ? query + ":" + locationName : query` (an empty location
string is falsy in JavaScript and behaves like an absent one). -/
def getCacheKey (query : String) (locationName : Option String) : String :=
  match locationName with
  | some l => if l = "" then query else query ++ ":" ++ l
  | none => query

/-- The search-document id built by `initializeMiniSearch`:
`{job.id}_{index}`. -/
def searchDocId (jobId : String) (index : Nat) : String :=
  jobId ++ "_" ++ decimalRepr index

/-- The decoding used by `searchJobs` and friends:
`result.id.split('_')[0]`, i.e. the prefix before the first underscore. -/
def docIdToOriginalId (docId : String) : String :=
  String.mk (docId.data.takeWhile (fun c => c != '_'))

/-- The service's result-cache TTL: `10 * 60 * 1000` milliseconds. -/
def CACHE_TTL : Nat := 10 * 60 * 1000

/-- One entry of the `searchCache` map: `{ results, timestamp }`. -/
structure CacheEntry where
  results : List TransformedJob
  timestamp : Nat
deriving DecidableEq, Repr

/-- The mutable search-result cache of the service (a JavaScript `Map`
from cache keys to entries), modelled as an association list. -/
structure SearchState where
  searchCache : List (String × CacheEntry)
deriving DecidableEq, Repr

/-- A service whose result cache is empty (fresh instance, or one on which
`close()` / `clearCache()` was just called). -/
def emptySearchState : SearchState := ⟨[]⟩

/-- `Map.delete(key)` on the modelled cache. -/
def cacheErase (cache : List (String × CacheEntry)) (key : String) :
    List (String × CacheEntry) :=
  cache.filter (fun p => !(p.1 == key))

/-- `Map.set(key, value)` on the modelled cache. -/
def cacheSet (cache : List (String × CacheEntry)) (key : String) (v : CacheEntry) :
    List (String × CacheEntry) :=
  (key, v) :: cacheErase cache key

/-- Embedding of `getCachedResults(key)`: return the entry's results if it
exists and is younger than `CACHE_TTL`; delete an expired entry; `now` is
the current `Date.now()`. -/
def getCachedResults (st : SearchState) (key : String) (now : Nat) :
    Option (List TransformedJob) × SearchState :=
  match List.lookup key st.searchCache with
  | some entry =>
    if now - entry.timestamp < CACHE_TTL then (some entry.results, st)
    else (none, ⟨cacheErase st.searchCache key⟩)
  | none => (none, st)

/-- Embedding of `setCachedResults(key, results)`. -/
def setCachedResults (st : SearchState) (key : String) (results : List TransformedJob)
    (now : Nat) : SearchState :=
  ⟨cacheSet st.searchCache key ⟨results, now⟩⟩

/-- JavaScript truthiness of the optional `limit` argument: absent or zero
is falsy. -/
def limitFalsy : Option Nat → Bool
  | none => true
  | some 0 => true
  | some (_ + 1) => false

/-- Pagination applied to cached results:
`limit ? results.slice(offset, offset + limit) : results.slice(offset)`. -/
def paginate (results : List TransformedJob) (limit : Option Nat) (offset : Nat) :
    List TransformedJob :=
  jsSlice results offset limit

/-- The observable outcome of one search call: the returned page, the
reported total, the service state afterwards, and whether the call ran a
MiniSearch index query. -/
structure SearchOutcome where
  jobs : List TransformedJob
  total : Nat
  state : SearchState
  queriedIndex : Bool
deriving DecidableEq, Repr

/-- Embedding of `searchJobs(query, limit, offset)` on an initialized
service.  `searchFn` abstracts the MiniSearch query plus the
document-to-record resolution (`search(query)` followed by
`jobs.find(j => j.id === result.id.split('_')[0])`): it is a fixed
function of the query for an unchanged record set and index.  Note the
cache key is the raw, unnormalized query, and results are cached only
when no limit was passed. -/
def searchJobs (searchFn : String → List Job) (st : SearchState) (query : String)
    (limit : Option Nat) (offset : Nat) (now : Nat) : SearchOutcome :=
  let cacheKey := getCacheKey query none
  let looked := getCachedResults st cacheKey now
  match looked.1 with
  | some cachedResults =>
    { jobs := paginate cachedResults limit offset
      total := cachedResults.length
      state := looked.2
      queriedIndex := false }
  | none =>
    let matchedJobs := searchFn query
    let results := transformJobsToTransformedJobs matchedJobs offset limit
    let st2 := if limitFalsy limit then setCachedResults looked.2 cacheKey results now
               else looked.2
    { jobs := results
      total := matchedJobs.length
      state := st2
      queriedIndex := true }

/-- JavaScript `limit || d` on the optional limit argument. -/
def jsOrNum (limit : Option Nat) (d : Nat) : Nat :=
  match limit with
  | some (n + 1) => n + 1
  | _ => d

/-- The shared tail of `searchJobsOptimized` past the cache check: run the
index query on the normalized query, transform, and cache the full results
when no limit was passed. -/
def searchJobsOptimizedMiss (searchFn : String → List Job) (st : SearchState)
    (normalizedQuery cacheKey : String) (limit : Option Nat) (offset : Nat)
    (now : Nat) : SearchOutcome :=
  let matchedJobs := searchFn normalizedQuery
  let results := transformJobsToTransformedJobs matchedJobs offset limit
  let st2 := if limitFalsy limit then setCachedResults st cacheKey results now else st
  { jobs := results
    total := matchedJobs.length
    state := st2
    queriedIndex := true }

/-- Embedding of `searchJobsOptimized(query, limit, offset)` on an
initialized service with record set `allJobs`.  The query is normalized
(`trim` then `toLowerCase`) before the cache-key construction and the
index lookup; an empty normalized query falls back to `getAllJobs`; a
cache hit is used only when no limit was passed. -/
def searchJobsOptimized (allJobs : List Job) (searchFn : String → List Job)
    (st : SearchState) (query : String) (limit : Option Nat) (offset : Nat)
    (now : Nat) : SearchOutcome :=
  let normalizedQuery := jsToLower (jsTrim query)
  if normalizedQuery = "" then
    { jobs := getAllJobs allJobs limit offset
      total := allJobs.length
      state := st
      queriedIndex := false }
  else
    let cacheKey := getCacheKey normalizedQuery none
    let looked := getCachedResults st cacheKey now
    match looked.1 with
    | some cachedResults =>
      if limitFalsy limit then
        { jobs := (cachedResults.drop offset).take (jsOrNum limit cachedResults.length)
          total := cachedResults.length
          state := looked.2
          queriedIndex := false }
      else
        searchJobsOptimizedMiss searchFn looked.2 normalizedQuery cacheKey limit offset now
    | none =>
      searchJobsOptimizedMiss searchFn looked.2 normalizedQuery cacheKey limit offset now

/-- The data-load state of the service: the memoized `dataLoadPromise`
(modelled by its settled outcome), the `initialized` flag, and a count of
how many times `performDataLoad` (an actual fetch attempt) ran. -/
structure LoadState where
  dataLoadPromise : Option (Except String Unit)
  initialized : Bool
  fetchCount : Nat
deriving Repr

/-- A freshly constructed service: no in-flight or settled load, not
initialized, no fetches performed. -/
def freshLoadState : LoadState := ⟨none, false, 0⟩

/-- Embedding of `loadJobsData()`: if `dataLoadPromise` is set, return it
(awaiting an already-settled promise replays its outcome, including a
rejection); otherwise run `performDataLoad` — whose outcome for this
attempt is the parameter `fetchOutcome` — and memoize the promise.  The
memo is NOT cleared on failure. -/
def loadJobsData (fetchOutcome : Except String Unit) (st : LoadState) :
    Except String Unit × LoadState :=
  match st.dataLoadPromise with
  | some outcome => (outcome, st)
  | none =>
    (fetchOutcome,
     { st with dataLoadPromise := some fetchOutcome, fetchCount := st.fetchCount + 1 })

/-- Embedding of `init()`: a no-op once initialized; otherwise await
`loadJobsData()` and set `initialized` only on success, rethrowing the
error on failure. -/
def initService (fetchOutcome : Except String Unit) (st : LoadState) :
    Except String Unit × LoadState :=
  if st.initialized then (Except.ok (), st)
  else
    match loadJobsData fetchOutcome st with
    | (Except.ok _, st1) => (Except.ok (), { st1 with initialized := true })
    | (Except.error e, st1) => (Except.error e, st1)

/-- Embedding of `close()` restricted to the load state: clears the caches
(not modelled here), resets `initialized` and `dataLoadPromise`. -/
def closeService (st : LoadState) : LoadState :=
  { st with dataLoadPromise := none, initialized := false }

/-- The id-independent content of a DisplayJob: every field except the
disambiguated `id`.  Used to state which parts of the projection are
deterministic regardless of id disambiguation. -/
structure DisplayContent where
  originalId : String
  title : String
  company : String
  location : String
  latitude : JSNum
  longitude : JSNum
  link : Option String
  salary : String
  tags : List String
  logo : String
deriving DecidableEq, Repr

/-- Forget the `id` field of a DisplayJob. -/
def displayContent (t : TransformedJob) : DisplayContent where
  originalId := t.originalId
  title := t.title
  company := t.company
  location := t.location
  latitude := t.latitude
  longitude := t.longitude
  link := t.link
  salary := t.salary
  tags := t.tags
  logo := t.logo

/-- Modelled from the spec (§3): the per-record expansion of one JobRecord
into DisplayJob contents — one placeholder for a record with no (or no
valid) locations, else one entry per valid location.  Used to compare the
code's transformation against the spec's description. -/
def specBlock (job : Job) : List DisplayContent :=
  if job.locations.isEmpty then [displayContent (placeholderJob job "")]
  else
    let valid := job.locations.filter isValidLoc
    if valid.isEmpty then [displayContent (placeholderJob job "")]
    else valid.map (fun loc => displayContent (locationJob job loc ""))

/-- The number of DisplayJobs one record contributes: one if it has no
valid location, else its number of valid locations. -/
def contributionCount (job : Job) : Nat :=
  if (job.locations.filter isValidLoc).isEmpty then 1
  else (job.locations.filter isValidLoc).length

/-! ### Concrete inputs used by counterexamples and witnesses -/

/-- A job record with the given id and locations and fixed innocuous
remaining fields. -/
def mkTestJob (i : String) (locs : List Location) : Job where
  id := i
  title := "Engineer"
  company := "Acme"
  locations := locs
  workload_min_percent := none
  workload_max_percent := none
  employment_types := []
  categories := ["it"]
  language := none
  posted_at := none
  valid_until := none
  link := none
  apply_link := none
  source_file := "jobs.json"

/-- A location with the given city and coordinates and empty remaining
fields. -/
def mkTestLoc (city : String) (lat lng : JSNum) : Location where
  city := city
  region := none
  country := none
  address := ""
  postal_code := ""
  latitude := lat
  longitude := lng

/-- Scenario record A: no locations at all. -/
def scenarioJobA : Job := mkTestJob "A" []

/-- Scenario record B: one invalid location (NaN longitude). -/
def scenarioJobB : Job := mkTestJob "B" [mkTestLoc "X" (.num 47) .nan]

/-- Scenario record C: two valid locations, in Bern and Basel. -/
def scenarioJobC : Job :=
  mkTestJob "C" [mkTestLoc "Bern" (.num 46) (.num 7), mkTestLoc "Basel" (.num 47) (.num 7)]

/-- The three-record batch of the spec's scenario. -/
def scenarioJobs : List Job := [scenarioJobA, scenarioJobB, scenarioJobC]

/-- A record whose single location has latitude exactly 0 (and a normal
longitude): JavaScript treats `0` as falsy, so the service's validity
check rejects it. -/
def zeroLatJob : Job := mkTestJob "Z" [mkTestLoc "Quito" (.num 0) (.num 10)]

/-- Fifty-one records with distinct ids and one valid location each; just
enough for the second page of a 50-per-page pagination to be nonempty. -/
def c4Jobs : List Job :=
  (List.range 51).map (fun i => mkTestJob (decimalRepr i) [mkTestLoc "X" (.num 1) (.num 2)])

/-- A record whose first location matches "bern" but is invalid (NaN
coordinates) and whose second location is valid but in Basel. -/
def c8Job : Job :=
  mkTestJob "M" [mkTestLoc "Bern" .nan .nan, mkTestLoc "Basel" (.num 47) (.num 7)]

/-- The one DisplayJob the service returns for `getJobsByLocation("bern")`
on `[c8Job]`. -/
def c8Out : TransformedJob := locationJob c8Job (mkTestLoc "Basel" (.num 47) (.num 7)) "M-0-0"

/-- A search function (MiniSearch plus record resolution) that never
matches anything. -/
def noHitsSearchFn : String → List Job := fun _ => []

/-- A search function that always matches the scenario record C. -/
def oneJobSearchFn : String → List Job := fun _ => [scenarioJobC]

/-- A search function that always matches the 51 pagination records. -/
def c4SearchFn : String → List Job := fun _ => c4Jobs

/-- Record X: id "a" with two valid locations (Bern and Basel). -/
def dupIdJobX : Job :=
  mkTestJob "a" [mkTestLoc "Bern" (.num 46) (.num 7), mkTestLoc "Basel" (.num 47) (.num 7)]

/-- Record Y: the same id "a" as X but with no locations at all; its only
DisplayJob would be the "Location not specified" placeholder. -/
def dupIdJobY : Job := mkTestJob "a" []

/-! ### The decimal renderer is injective -/

theorem toDecimalAux_eq_digits (fuel : Nat) : ∀ n : Nat, n ≤ fuel →
    toDecimalAux fuel n = ((Nat.digits 10 n).map Nat.digitChar).reverse := by
  induction fuel with
  | zero =>
    intro n hn
    interval_cases n
    simp [toDecimalAux]
  | succ fuel ih =>
    intro n hn
    by_cases h0 : n = 0
    · subst h0; simp [toDecimalAux]
    · have hpos : 0 < n := Nat.pos_of_ne_zero h0
      have hdiv : n / 10 ≤ fuel := by
        have : n / 10 < n := Nat.div_lt_self hpos (by norm_num)
        omega
      rw [toDecimalAux, if_neg h0, ih (n / 10) hdiv,
        Nat.digits_def' (by norm_num : (1 : ℕ) < 10) hpos]
      simp

theorem digitChar_inj_lt_ten : ∀ a, a < 10 → ∀ b, b < 10 →
    Nat.digitChar a = Nat.digitChar b → a = b := by decide

theorem map_digitChar_inj : ∀ l1 l2 : List Nat, (∀ d ∈ l1, d < 10) → (∀ d ∈ l2, d < 10) →
    l1.map Nat.digitChar = l2.map Nat.digitChar → l1 = l2 := by
  intro l1
  induction l1 with
  | nil => intro l2 _ _ h; cases l2 <;> simp_all
  | cons a l1 ih =>
    intro l2 h1 h2 h
    cases l2 with
    | nil => simp_all
    | cons b l2 =>
      simp only [List.map_cons, List.cons.injEq] at h
      have ha : a < 10 := h1 a (by simp)
      have hb : b < 10 := h2 b (by simp)
      have hab : a = b := digitChar_inj_lt_ten a ha b hb h.1
      have := ih l2 (fun d hd => h1 d (by simp [hd])) (fun d hd => h2 d (by simp [hd])) h.2
      simp [hab, this]

theorem digits_lt_ten {n : Nat} : ∀ d ∈ Nat.digits 10 n, d < 10 := by
  intro d hd
  exact Nat.digits_lt_base (by norm_num) hd

theorem decimalRepr_data (n : Nat) (h : n ≠ 0) :
    (decimalRepr n).data = ((Nat.digits 10 n).map Nat.digitChar).reverse := by
  rw [decimalRepr, if_neg h]
  exact congrArg String.data (congrArg String.mk (toDecimalAux_eq_digits n n le_rfl))

theorem decimalRepr_injective : Function.Injective decimalRepr := by
  intro m n h
  have hdata : (decimalRepr m).data = (decimalRepr n).data := congrArg String.data h
  by_cases hm : m = 0 <;> by_cases hn : n = 0
  · omega
  · exfalso
    rw [hm] at hdata
    rw [decimalRepr_data n hn] at hdata
    have h0 : ("0" : String).data = ['0'] := rfl
    rw [decimalRepr, if_pos rfl, h0] at hdata
    have hrev : (Nat.digits 10 n).map Nat.digitChar = ['0'] := by
      have := congrArg List.reverse hdata
      simpa using this.symm
    have : Nat.digits 10 n = [0] := by
      apply map_digitChar_inj _ _ digits_lt_ten (by norm_num)
      simpa using hrev
    have : n = 0 := by
      have hof := Nat.ofDigits_digits 10 n
      rw [this] at hof
      simpa using hof.symm
    exact hn this
  · exfalso
    rw [hn] at hdata
    rw [decimalRepr_data m hm] at hdata
    have h0 : ("0" : String).data = ['0'] := rfl
    rw [decimalRepr, if_pos rfl, h0] at hdata
    have hrev : (Nat.digits 10 m).map Nat.digitChar = ['0'] := by
      have := congrArg List.reverse hdata
      simpa using this
    have : Nat.digits 10 m = [0] := by
      apply map_digitChar_inj _ _ digits_lt_ten (by norm_num)
      simpa using hrev
    have : m = 0 := by
      have hof := Nat.ofDigits_digits 10 m
      rw [this] at hof
      simpa using hof.symm
    exact hm this
  · rw [decimalRepr_data m hm, decimalRepr_data n hn] at hdata
    have hmap : (Nat.digits 10 m).map Nat.digitChar = (Nat.digits 10 n).map Nat.digitChar := by
      have := congrArg List.reverse hdata
      simpa using this
    have hdig : Nat.digits 10 m = Nat.digits 10 n :=
      map_digitChar_inj _ _ digits_lt_ten digits_lt_ten hmap
    have hof := Nat.ofDigits_digits 10 m
    rw [hdig, Nat.ofDigits_digits] at hof
    exact hof.symm

/-! ### The id-disambiguation loop always produces a fresh id -/

theorem candidateId_data (base : String) (n : Nat) :
    (candidateId base (n + 1)).data = base.data ++ '-' :: (decimalRepr (n + 1)).data := by
  show ((base ++ "-") ++ decimalRepr (n + 1)).data = _
  rw [String.data_append, String.data_append]
  simp

theorem candidateId_injective (base : String) : Function.Injective (candidateId base) := by
  intro m n h
  have hdata := congrArg String.data h
  match m, n with
  | 0, 0 => rfl
  | 0, n + 1 =>
    exfalso
    rw [candidateId_data] at hdata
    have := congrArg List.length hdata
    simp [candidateId] at this
  | m + 1, 0 =>
    exfalso
    rw [candidateId_data] at hdata
    have := congrArg List.length hdata
    simp [candidateId] at this
  | m + 1, n + 1 =>
    rw [candidateId_data, candidateId_data] at hdata
    have htail := List.append_cancel_left hdata
    have hD : (decimalRepr (m + 1)).data = (decimalRepr (n + 1)).data := by
      simpa using htail
    have := decimalRepr_injective (String.ext hD)
    omega

theorem freshId_not_mem (base : String) (used : List String) : freshId base used ∉ used := by
  unfold freshId
  cases hfind : (List.range (used.length + 1)).find?
      (fun n => !(used.contains (candidateId base n))) with
  | some n =>
    intro hmem
    have hp := List.find?_some hfind
    have h2 : used.contains (candidateId base n) = true := List.elem_eq_true_of_mem hmem
    rw [h2] at hp
    simp at hp
  | none =>
    exfalso
    have hall : ∀ n ∈ List.range (used.length + 1), candidateId base n ∈ used := by
      intro n hn
      have := List.find?_eq_none.mp hfind n hn
      simp only [Bool.not_eq_true', Bool.not_eq_false] at this
      exact List.mem_of_elem_eq_true this
    set cl := (List.range (used.length + 1)).map (candidateId base) with hcl
    have hnodup : cl.Nodup := (List.nodup_range _).map (candidateId_injective base)
    have hsub : ∀ x ∈ cl, x ∈ used := by
      intro x hx
      rcases List.mem_map.mp hx with ⟨n, hn, rfl⟩
      exact hall n hn
    have hcard1 : cl.toFinset.card = used.length + 1 := by
      rw [List.toFinset_card_of_nodup hnodup, hcl, List.length_map, List.length_range]
    have hcard2 : cl.toFinset.card ≤ used.length := by
      calc cl.toFinset.card ≤ used.toFinset.card := by
            apply Finset.card_le_card
            intro x hx
            exact List.mem_toFinset.mpr (hsub x (List.mem_toFinset.mp hx))
        _ ≤ used.length := used.toFinset_card_le
    omega

/-! ### The usedIds set exactly tracks the emitted ids, which are fresh
and pairwise distinct -/

theorem processLocs_ids (job : Job) (ji : Nat) :
    ∀ (locs : List Location) (index : Nat) (used : List String),
    (processLocs job ji locs index used).2
        = ((processLocs job ji locs index used).1.map TransformedJob.id).reverse ++ used
      ∧ ((processLocs job ji locs index used).1.map TransformedJob.id).Nodup
      ∧ ∀ s ∈ (processLocs job ji locs index used).1.map TransformedJob.id, s ∉ used := by
  intro locs
  induction locs with
  | nil => intro index used; simp [processLocs]
  | cons loc rest ih =>
    intro index used
    set uid := freshId (job.id ++ "-" ++ decimalRepr index ++ "-" ++ decimalRepr ji) used
      with huid
    obtain ⟨h1, h2, h3⟩ := ih (index + 1) (uid :: used)
    have hfresh : uid ∉ used := freshId_not_mem _ used
    have hstep :
        processLocs job ji (loc :: rest) index used
          = (locationJob job loc uid :: (processLocs job ji rest (index + 1) (uid :: used)).1,
             (processLocs job ji rest (index + 1) (uid :: used)).2) := rfl
    rw [hstep]
    refine ⟨?_, ?_, ?_⟩
    · simp only [List.map_cons, List.reverse_cons, List.append_assoc]
      rw [h1]
      rfl
    · simp only [List.map_cons, List.nodup_cons]
      constructor
      · intro hmem
        exact h3 _ hmem (by simp [locationJob])
      · exact h2
    · intro s hs
      simp only [List.map_cons, List.mem_cons] at hs
      rcases hs with rfl | hs
      · exact hfresh
      · intro hmem
        exact h3 s hs (by simp [hmem])

theorem processJob_ids (job : Job) (ji : Nat) (used : List String) :
    (processJob job ji used).2
        = ((processJob job ji used).1.map TransformedJob.id).reverse ++ used
      ∧ ((processJob job ji used).1.map TransformedJob.id).Nodup
      ∧ ∀ s ∈ (processJob job ji used).1.map TransformedJob.id, s ∉ used := by
  unfold processJob
  cases hempty : job.locations.isEmpty with
  | true =>
    rw [if_pos rfl]
    refine ⟨rfl, by simp, ?_⟩
    intro s hs
    simp only [List.map_cons, List.map_nil, List.mem_singleton, placeholderJob] at hs
    subst hs
    exact freshId_not_mem _ used
  | false =>
    rw [if_neg (by simp)]
    dsimp only
    cases hvalid : (job.locations.filter isValidLoc).isEmpty with
    | true =>
      rw [if_pos rfl]
      refine ⟨rfl, by simp, ?_⟩
      intro s hs
      simp only [List.map_cons, List.map_nil, List.mem_singleton, placeholderJob] at hs
      subst hs
      exact freshId_not_mem _ used
    | false =>
      rw [if_neg (by simp)]
      exact processLocs_ids job ji _ 0 used

theorem processJobs_ids :
    ∀ (jobs : List Job) (ji : Nat) (used : List String),
    (processJobs jobs ji used).2
        = ((processJobs jobs ji used).1.map TransformedJob.id).reverse ++ used
      ∧ ((processJobs jobs ji used).1.map TransformedJob.id).Nodup
      ∧ ∀ s ∈ (processJobs jobs ji used).1.map TransformedJob.id, s ∉ used := by
  intro jobs
  induction jobs with
  | nil => intro ji used; simp [processJobs]
  | cons job rest ih =>
    intro ji used
    obtain ⟨h1, h2, h3⟩ := processJob_ids job ji used
    obtain ⟨g1, g2, g3⟩ := ih (ji + 1) (processJob job ji used).2
    have hstep :
        processJobs (job :: rest) ji used
          = ((processJob job ji used).1 ++ (processJobs rest (ji + 1) (processJob job ji used).2).1,
             (processJobs rest (ji + 1) (processJob job ji used).2).2) := rfl
    rw [hstep]
    have hdisj : ∀ s ∈ (processJobs rest (ji + 1) (processJob job ji used).2).1.map
        TransformedJob.id,
        s ∉ ((processJob job ji used).1.map TransformedJob.id) ∧ s ∉ used := by
      intro s hs
      have := g3 s hs
      rw [h1] at this
      simp only [List.mem_append, List.mem_reverse] at this
      exact ⟨fun hc => this (Or.inl hc), fun hc => this (Or.inr hc)⟩
    refine ⟨?_, ?_, ?_⟩
    · simp only [List.map_append, List.reverse_append, List.append_assoc]
      rw [g1, h1]
    · simp only [List.map_append]
      rw [List.nodup_append]
      refine ⟨h2, g2, ?_⟩
      intro s hsl hsr
      exact (hdisj s hsr).1 hsl
    · intro s hs
      simp only [List.map_append, List.mem_append] at hs
      rcases hs with hs | hs
      · exact h3 s hs
      · exact (hdisj s hs).2

/-! ### The final duplicate filter is the identity on id-nodup lists -/

theorem findIdx_eq_index {α : Type} (p : α → Bool) :
    ∀ (l : List α) (i : Nat) (hi : i < l.length),
    p (l.get ⟨i, hi⟩) = true →
    (∀ j (hj : j < i), p (l.get ⟨j, Nat.lt_trans hj hi⟩) = false) →
    l.findIdx p = i := by
  intro l
  induction l with
  | nil => intro i hi; simp at hi
  | cons a l ih =>
    intro i hi hp hprev
    cases i with
    | zero =>
      simp only [List.get] at hp
      simp [List.findIdx_cons, hp]
    | succ k =>
      have ha : p a = false := hprev 0 (Nat.succ_pos k)
      rw [List.findIdx_cons, ha]
      simp only [cond_false]
      have hk : k < l.length := by simpa using hi
      have hpk : p (l.get ⟨k, hk⟩) = true := hp
      have hprevk : ∀ j (hj : j < k), p (l.get ⟨j, Nat.lt_trans hj hk⟩) = false := by
        intro j hj
        exact hprev (j + 1) (by omega)
      rw [ih k hk hpk hprevk]

theorem keepFirstById_eq_self (l : List TransformedJob)
    (h : (l.map TransformedJob.id).Nodup) : keepFirstById l = l := by
  unfold keepFirstById
  have hall : ∀ q ∈ l.enum, (l.findIdx (fun j => j.id == q.2.id) == q.1) = true := by
    intro q hq
    rcases q with ⟨i, x⟩
    have hget : l[i]? = some x := List.mem_enum_iff_getElem?.mp hq
    have hi : i < l.length := by
      by_contra hlt
      rw [List.getElem?_eq_none (by omega)] at hget
      cases hget
    have hx : l.get ⟨i, hi⟩ = x := by
      have h2 : l[i]? = some (l.get ⟨i, hi⟩) := List.getElem?_eq_getElem hi
      rw [h2] at hget
      exact (Option.some.injEq _ _).mp hget
    have hfind : l.findIdx (fun j => j.id == x.id) = i := by
      apply findIdx_eq_index _ l i hi
      · rw [hx]
        simp
      · intro j hj
        by_contra hcon
        simp only [Bool.not_eq_false, beq_iff_eq] at hcon
        have hji : (l.map TransformedJob.id).get ⟨j, by simpa using Nat.lt_trans hj hi⟩
            = (l.map TransformedJob.id).get ⟨i, by simpa using hi⟩ := by
          have e1 : (l.map TransformedJob.id).get ⟨j, by simpa using Nat.lt_trans hj hi⟩
              = (l.get ⟨j, Nat.lt_trans hj hi⟩).id := by
            simp
          have e2 : (l.map TransformedJob.id).get ⟨i, by simpa using hi⟩
              = (l.get ⟨i, hi⟩).id := by
            simp
          rw [e1, e2]
          exact hcon.trans (congrArg TransformedJob.id hx.symm)
        have hfin := h.get_inj_iff.mp hji
        have : j = i := congrArg Fin.val hfin
        omega
    simp [hfind]
  rw [List.filter_eq_self.mpr hall, List.enum_map_snd]

/-! ### The id-independent content of the transformation -/

theorem processLocs_content (job : Job) (ji : Nat) :
    ∀ (locs : List Location) (index : Nat) (used : List String),
    (processLocs job ji locs index used).1.map displayContent
      = locs.map (fun loc => displayContent (locationJob job loc "")) := by
  intro locs
  induction locs with
  | nil => intro index used; rfl
  | cons loc rest ih =>
    intro index used
    simp only [processLocs, List.map_cons]
    rw [ih]
    rfl

theorem processJob_content (job : Job) (ji : Nat) (used : List String) :
    (processJob job ji used).1.map displayContent = specBlock job := by
  unfold processJob specBlock
  by_cases hempty : job.locations.isEmpty = true
  · simp [hempty, placeholderJob, displayContent]
  · simp only [hempty, if_false, Bool.false_eq_true]
    by_cases hvalid : (job.locations.filter isValidLoc).isEmpty = true
    · simp [hvalid, placeholderJob, displayContent]
    · simp only [hvalid, if_false, Bool.false_eq_true]
      exact processLocs_content job ji _ 0 used

theorem processJobs_content :
    ∀ (jobs : List Job) (ji : Nat) (used : List String),
    (processJobs jobs ji used).1.map displayContent = jobs.flatMap specBlock := by
  intro jobs
  induction jobs with
  | nil => intro ji used; rfl
  | cons job rest ih =>
    intro ji used
    have hstep :
        processJobs (job :: rest) ji used
          = ((processJob job ji used).1 ++ (processJobs rest (ji + 1) (processJob job ji used).2).1,
             (processJobs rest (ji + 1) (processJob job ji used).2).2) := rfl
    rw [hstep]
    simp only [List.map_append, List.flatMap_cons]
    rw [processJob_content, ih]

theorem transform_content (jobs : List Job) (offset : Nat) (limit : Option Nat) :
    (transformJobsToTransformedJobs jobs offset limit).map displayContent
      = (jsSlice jobs offset limit).flatMap specBlock := by
  unfold transformJobsToTransformedJobs
  rw [keepFirstById_eq_self _ (processJobs_ids _ 0 []).2.1, processJobs_content]

theorem specBlock_length (job : Job) : (specBlock job).length = contributionCount job := by
  unfold specBlock contributionCount
  by_cases hempty : job.locations.isEmpty = true
  · have hnil : job.locations = [] := List.isEmpty_iff.mp hempty
    simp [hempty, hnil]
  · simp only [hempty, if_false, Bool.false_eq_true]
    by_cases hvalid : (job.locations.filter isValidLoc).isEmpty = true
    · simp [hvalid]
    · simp [hvalid]

theorem transform_length (jobs : List Job) (offset : Nat) (limit : Option Nat) :
    (transformJobsToTransformedJobs jobs offset limit).length
      = ((jsSlice jobs offset limit).map contributionCount).sum := by
  have h := congrArg List.length (transform_content jobs offset limit)
  rw [List.length_map] at h
  rw [h, List.length_flatMap]
  congr 1
  apply List.map_congr_left
  intro a _
  exact specBlock_length a

/-! ### Every emitted DisplayJob points back to a record of the input batch -/

theorem processLocs_originalId (job : Job) (ji : Nat) :
    ∀ (locs : List Location) (index : Nat) (used : List String) (t : TransformedJob),
    t ∈ (processLocs job ji locs index used).1 → t.originalId = job.id := by
  intro locs
  induction locs with
  | nil => intro index used t ht; simp [processLocs] at ht
  | cons loc rest ih =>
    intro index used t ht
    have hstep :
        (processLocs job ji (loc :: rest) index used).1
          = locationJob job loc
              (freshId (job.id ++ "-" ++ decimalRepr index ++ "-" ++ decimalRepr ji) used)
            :: (processLocs job ji rest (index + 1)
                (freshId (job.id ++ "-" ++ decimalRepr index ++ "-" ++ decimalRepr ji) used
                  :: used)).1 := rfl
    rw [hstep] at ht
    rcases List.mem_cons.mp ht with rfl | ht
    · rfl
    · exact ih (index + 1) _ t ht

theorem processJob_originalId (job : Job) (ji : Nat) (used : List String)
    (t : TransformedJob) (ht : t ∈ (processJob job ji used).1) : t.originalId = job.id := by
  unfold processJob at ht
  by_cases hempty : job.locations.isEmpty = true
  · rw [if_pos hempty] at ht
    rcases List.mem_singleton.mp ht with rfl
    rfl
  · rw [if_neg hempty] at ht
    dsimp only at ht
    by_cases hvalid : (job.locations.filter isValidLoc).isEmpty = true
    · rw [if_pos hvalid] at ht
      rcases List.mem_singleton.mp ht with rfl
      rfl
    · rw [if_neg hvalid] at ht
      exact processLocs_originalId job ji _ 0 used t ht

theorem processJobs_originalId :
    ∀ (jobs : List Job) (ji : Nat) (used : List String) (t : TransformedJob),
    t ∈ (processJobs jobs ji used).1 → ∃ job ∈ jobs, t.originalId = job.id := by
  intro jobs
  induction jobs with
  | nil => intro ji used t ht; simp [processJobs] at ht
  | cons job rest ih =>
    intro ji used t ht
    have hstep :
        (processJobs (job :: rest) ji used).1
          = (processJob job ji used).1
              ++ (processJobs rest (ji + 1) (processJob job ji used).2).1 := rfl
    rw [hstep] at ht
    rcases List.mem_append.mp ht with ht | ht
    · exact ⟨job, by simp, processJob_originalId job ji used t ht⟩
    · rcases ih (ji + 1) _ t ht with ⟨j, hj, hid⟩
      exact ⟨j, by simp [hj], hid⟩

theorem keepFirstById_subset (l : List TransformedJob) (t : TransformedJob)
    (ht : t ∈ keepFirstById l) : t ∈ l := by
  unfold keepFirstById at ht
  rcases List.mem_map.mp ht with ⟨q, hq, rfl⟩
  have hql := List.mem_filter.mp hq
  have := List.mem_enum_iff_getElem?.mp hql.1
  exact List.getElem?_mem this

theorem jsSlice_subset {α : Type} (l : List α) (offset : Nat) (limit : Option Nat) :
    ∀ a ∈ jsSlice l offset limit, a ∈ l := by
  intro a ha
  unfold jsSlice at ha
  match limit with
  | some (lim + 1) => exact List.drop_subset offset l (List.take_subset _ _ ha)
  | some 0 => exact List.drop_subset offset l ha
  | none => exact List.drop_subset offset l ha

theorem transform_origin (jobs : List Job) (offset : Nat) (limit : Option Nat)
    (t : TransformedJob) (ht : t ∈ transformJobsToTransformedJobs jobs offset limit) :
    ∃ job ∈ jobs, t.originalId = job.id := by
  unfold transformJobsToTransformedJobs at ht
  have h1 := keepFirstById_subset _ _ ht
  rcases processJobs_originalId _ 0 [] t h1 with ⟨j, hj, hid⟩
  exact ⟨j, jsSlice_subset jobs offset limit j hj, hid⟩

/-! ### takeWhile and append-split facts for the doc-id round trip and the
cache-key collisions -/

theorem takeWhile_append_of_all {α : Type} {p : α → Bool} :
    ∀ (l r : List α), (∀ c ∈ l, p c = true) → (l ++ r).takeWhile p = l ++ r.takeWhile p := by
  intro l
  induction l with
  | nil => intro r _; rfl
  | cons a l ih =>
    intro r hall
    have ha : p a = true := hall a (by simp)
    have hrec := ih r (fun c hc => hall c (by simp [hc]))
    simp [List.takeWhile_cons, ha, hrec]

theorem takeWhile_append_of_mem {α : Type} {p : α → Bool} :
    ∀ (l r : List α), (∃ c ∈ l, p c = false) → (l ++ r).takeWhile p = l.takeWhile p := by
  intro l
  induction l with
  | nil => intro r h; simp at h
  | cons a l ih =>
    intro r h
    cases ha : p a with
    | false => simp [List.takeWhile_cons, ha]
    | true =>
      have hl : ∃ c ∈ l, p c = false := by
        rcases h with ⟨c, hc, hpc⟩
        rcases List.mem_cons.mp hc with rfl | hc
        · rw [ha] at hpc; cases hpc
        · exact ⟨c, hc, hpc⟩
      have hrec := ih r hl
      simp [List.takeWhile_cons, ha, hrec]

theorem takeWhile_ne_self_of_mem {α : Type} {p : α → Bool} :
    ∀ (l : List α), (∃ c ∈ l, p c = false) → l.takeWhile p ≠ l := by
  intro l
  induction l with
  | nil => intro h; simp at h
  | cons a l ih =>
    intro h
    cases ha : p a with
    | false => simp [List.takeWhile_cons, ha]
    | true =>
      have hl : ∃ c ∈ l, p c = false := by
        rcases h with ⟨c, hc, hpc⟩
        rcases List.mem_cons.mp hc with rfl | hc
        · rw [ha] at hpc; cases hpc
        · exact ⟨c, hc, hpc⟩
      simp only [List.takeWhile_cons, ha]
      intro hcon
      exact ih hl (by injection hcon)

theorem colon_split :
    ∀ (a b x y : List Char),
    ':' ∉ a → ':' ∉ b → a ++ ':' :: x = b ++ ':' :: y → a = b ∧ x = y := by
  intro a
  induction a with
  | nil =>
    intro b x y _ hb h
    cases b with
    | nil => simpa using h
    | cons d b =>
      exfalso
      simp only [List.nil_append, List.cons_append, List.cons.injEq] at h
      exact hb (by simp [h.1.symm])
  | cons c a ih =>
    intro b x y ha hb h
    cases b with
    | nil =>
      exfalso
      simp only [List.cons_append, List.nil_append, List.cons.injEq] at h
      exact ha (by simp [h.1])
    | cons d b =>
      simp only [List.cons_append, List.cons.injEq] at h
      have hcd : c = d := h.1
      have ha2 : ':' ∉ a := fun hc => ha (by simp [hc])
      have hb2 : ':' ∉ b := fun hc => hb (by simp [hc])
      obtain ⟨hab, hxy⟩ := ih b x y ha2 hb2 h.2
      exact ⟨by simp [hcd, hab], hxy⟩

theorem colonKey_data (a b : String) : (a ++ ":" ++ b).data = a.data ++ ':' :: b.data := by
  rw [String.data_append, String.data_append]
  simp

theorem getCacheKey_none (q : String) : getCacheKey q none = q := rfl

theorem getCacheKey_some (q s : String) (hs : s ≠ "") :
    getCacheKey q (some s) = q ++ ":" ++ s := if_neg hs

theorem underscoreKey_data (a b : String) :
    (a ++ "_" ++ b).data = a.data ++ '_' :: b.data := by
  rw [String.data_append, String.data_append]
  simp

theorem transform_ids_nodup (jobs : List Job) (offset : Nat) (limit : Option Nat) :
    ((transformJobsToTransformedJobs jobs offset limit).map TransformedJob.id).Nodup := by
  unfold transformJobsToTransformedJobs
  rw [keepFirstById_eq_self _ (processJobs_ids _ 0 []).2.1]
  exact (processJobs_ids _ 0 []).2.1

/-! ### Single-entry cache facts used by the search-call theorems -/

theorem getCachedResults_singleton_hit (key : String) (results : List TransformedJob)
    (ts now : Nat) (h : now - ts < CACHE_TTL) :
    getCachedResults ⟨[(key, ⟨results, ts⟩)]⟩ key now
      = (some results, ⟨[(key, ⟨results, ts⟩)]⟩) := by
  simp [getCachedResults, List.lookup, h]

theorem searchJobs_fresh_limited (searchFn : String → List Job) (q : String)
    (l off now : Nat) :
    searchJobs searchFn emptySearchState q (some (l + 1)) off now
      = { jobs := transformJobsToTransformedJobs (searchFn q) off (some (l + 1))
          total := (searchFn q).length
          state := emptySearchState
          queriedIndex := true } := by
  simp only [searchJobs]
  rfl

theorem searchJobs_fresh (searchFn : String → List Job) (q : String) (off now : Nat) :
    searchJobs searchFn emptySearchState q none off now
      = { jobs := transformJobsToTransformedJobs (searchFn q) off none
          total := (searchFn q).length
          state := ⟨[(q, ⟨transformJobsToTransformedJobs (searchFn q) off none, now⟩)]⟩
          queriedIndex := true } := by
  simp only [searchJobs]
  rfl

theorem searchJobs_hit (searchFn : String → List Job) (q : String) (lim2 : Option Nat)
    (off2 now2 : Nat) (results : List TransformedJob) (ts : Nat)
    (hts : now2 - ts < CACHE_TTL) :
    searchJobs searchFn ⟨[(q, ⟨results, ts⟩)]⟩ q lim2 off2 now2
      = { jobs := paginate results lim2 off2
          total := results.length
          state := ⟨[(q, ⟨results, ts⟩)]⟩
          queriedIndex := false } := by
  simp only [searchJobs]
  rw [getCacheKey_none, getCachedResults_singleton_hit q results ts now2 hts]

theorem optimized_fresh_state (allJobs : List Job) (searchFn : String → List Job)
    (q : String) (now : Nat) (hne : jsToLower (jsTrim q) ≠ "") :
    searchJobsOptimized allJobs searchFn emptySearchState q none 0 now
      = { jobs := transformJobsToTransformedJobs (searchFn (jsToLower (jsTrim q))) 0 none
          total := (searchFn (jsToLower (jsTrim q))).length
          state := ⟨[(jsToLower (jsTrim q),
            ⟨transformJobsToTransformedJobs (searchFn (jsToLower (jsTrim q))) 0 none, now⟩)]⟩
          queriedIndex := true } := by
  simp only [searchJobsOptimized]
  rw [if_neg hne]
  rfl

theorem optimized_cached_hit (allJobs : List Job) (searchFn : String → List Job)
    (q : String) (results : List TransformedJob) (ts off2 now2 : Nat)
    (hne : jsToLower (jsTrim q) ≠ "") (hts : now2 - ts < CACHE_TTL) :
    searchJobsOptimized allJobs searchFn ⟨[(jsToLower (jsTrim q), ⟨results, ts⟩)]⟩
        q none off2 now2
      = { jobs := (results.drop off2).take results.length
          total := results.length
          state := ⟨[(jsToLower (jsTrim q), ⟨results, ts⟩)]⟩
          queriedIndex := false } := by
  simp only [searchJobsOptimized]
  rw [if_neg hne, getCacheKey_none, getCachedResults_singleton_hit _ results ts now2 hts]
  rfl

/-! ## The claims -/

/-- C1: for every input batch of JobRecords (any offset/limit slicing),
`transformJobsToTransformedJobs` — and hence `getAllJobs`,
`getJobsByLocation` and the freshly computed results of `searchJobs` —
returns DisplayJobs whose `id` values are pairwise distinct, even when two
records share an id or a record has duplicate-looking locations. -/
theorem C1_display_ids_pairwise_distinct (jobs : List Job) (offset : Nat)
    (limit : Option Nat) (locationName query : String)
    (searchFn : String → List Job) (now : Nat) :
    ((transformJobsToTransformedJobs jobs offset limit).map TransformedJob.id).Nodup
    ∧ ((getAllJobs jobs limit offset).map TransformedJob.id).Nodup
    ∧ ((getJobsByLocation jobs locationName limit offset).map TransformedJob.id).Nodup
    ∧ (((searchJobs searchFn emptySearchState query limit offset now).jobs).map
        TransformedJob.id).Nodup := by
  refine ⟨transform_ids_nodup jobs offset limit, transform_ids_nodup jobs offset limit,
    transform_ids_nodup _ offset limit, ?_⟩
  exact transform_ids_nodup (searchFn query) offset limit

/-- C2: the coverage law ("every JobRecord contributes at least one
DisplayJob", scenario included) is the spec's explicit intent, and it
holds on every memo miss — on a fresh service the A/B/C scenario does
return exactly 4 DisplayJobs — but the transformation-cache key defeats
it: find-first resolution maps both hits of the duplicated id "a" to
record X, the resolved batch [X, X] and the record set [X, Y] share the
key "a,a-0-all" (the key sorts and comma-joins ids only), so after the
search has populated the cache `getAllJobs` replays X's four DisplayJobs:
record Y contributes zero DisplayJobs and no placeholder appears, where a
fresh computation gives 3 DisplayJobs including Y's placeholder. -/
theorem C2_coverage_broken_by_transformation_cache :
    List.find? (fun j => j.id == docIdToOriginalId (searchDocId dupIdJobX.id 0))
        [dupIdJobX, dupIdJobY] = some dupIdJobX
    ∧ List.find? (fun j => j.id == docIdToOriginalId (searchDocId dupIdJobY.id 1))
        [dupIdJobX, dupIdJobY] = some dupIdJobX
    ∧ getTransformationCacheKey [dupIdJobX, dupIdJobX] 0 none
        = getTransformationCacheKey [dupIdJobX, dupIdJobY] 0 none
    ∧ (transformWithCache
          (transformWithCache emptyTransformState [dupIdJobX, dupIdJobX] 0 none).2
          [dupIdJobX, dupIdJobY] 0 none).1
        = transformJobsToTransformedJobs [dupIdJobX, dupIdJobX] 0 none
    ∧ (transformWithCache
          (transformWithCache emptyTransformState [dupIdJobX, dupIdJobX] 0 none).2
          [dupIdJobX, dupIdJobY] 0 none).1.length = 4
    ∧ (∀ t ∈ (transformWithCache
          (transformWithCache emptyTransformState [dupIdJobX, dupIdJobX] 0 none).2
          [dupIdJobX, dupIdJobY] 0 none).1,
        t.location ≠ "Location not specified")
    ∧ (transformJobsToTransformedJobs [dupIdJobX, dupIdJobY] 0 none).length = 3
    ∧ (∃ t ∈ transformJobsToTransformedJobs [dupIdJobX, dupIdJobY] 0 none,
        t.location = "Location not specified")
    ∧ (getAllJobs scenarioJobs none 0).length = 4
    ∧ (getAllJobs scenarioJobs none 0).map (fun t => t.location)
        = ["Location not specified", "Location not specified", "Bern", "Basel"] := by
  decide

/-- C3: the claim says a location with an explicitly present coordinate
equal to 0 is valid; the code's truthiness check
`loc.latitude && loc.longitude && …` rejects it, so a record whose only
location has latitude 0 and longitude 10 gets the placeholder DisplayJob
instead of a real one at (0, 10), even though 0 is a finite non-NaN
number. -/
theorem C3_zero_coordinate_rejected :
    jsIsNaN (JSNum.num 0) = false
    ∧ isValidLoc (mkTestLoc "Quito" (.num 0) (.num 10)) = false
    ∧ transformJobsToTransformedJobs [zeroLatJob] 0 none
        = [placeholderJob zeroLatJob "Z-invalid-location"] := by decide

theorem transform_pages_match_up_to_ids (m : List Job) :
    (transformJobsToTransformedJobs m 0 (some 50)
        ++ transformJobsToTransformedJobs m 50 (some 50)).map displayContent
      = (transformJobsToTransformedJobs m 0 (some 100)).map displayContent := by
  rw [List.map_append, transform_content, transform_content, transform_content,
    ← List.flatMap_append]
  congr 1
  show (m.drop 0).take 50 ++ (m.drop 50).take 50 = (m.drop 0).take 100
  rw [List.drop_zero, show (100 : Nat) = 50 + 50 from rfl, List.take_add]

/-- C4 counterexample: over 51 one-location matched records, the two
50-per-page `searchJobs` calls do not concatenate to the single 100-limit
call — the DisplayJob ids embed the page-relative record index, so the
page-2 record gets id "50-0-0" rather than "50-0-50". -/
theorem C4_counterexample :
    (searchJobs c4SearchFn emptySearchState "java" (some 50) 0 0).jobs
        ++ (searchJobs c4SearchFn
              (searchJobs c4SearchFn emptySearchState "java" (some 50) 0 0).state
              "java" (some 50) 50 1).jobs
      ≠ (searchJobs c4SearchFn emptySearchState "java" (some 100) 0 2).jobs := by decide

/-- C4 amended: pagination in `searchJobs` slices the matched record list
before expansion, and the two pages' DisplayJobs concatenate to exactly
the single 100-limit call's DisplayJobs once the `id` field — which
embeds the page-relative record index — is erased. -/
theorem C4_pages_match_up_to_ids (searchFn : String → List Job) (q : String)
    (now1 now2 now3 : Nat) :
    (((searchJobs searchFn emptySearchState q (some 50) 0 now1).jobs
        ++ (searchJobs searchFn
              (searchJobs searchFn emptySearchState q (some 50) 0 now1).state
              q (some 50) 50 now2).jobs).map displayContent)
      = ((searchJobs searchFn emptySearchState q (some 100) 0 now3).jobs).map
          displayContent := by
  rw [show (50 : Nat) = 49 + 1 from rfl, searchJobs_fresh_limited searchFn q 49 0 now1]
  dsimp only
  rw [searchJobs_fresh_limited searchFn q 49 50 now2,
    show (100 : Nat) = 99 + 1 from rfl, searchJobs_fresh_limited searchFn q 99 0 now3]
  exact transform_pages_match_up_to_ids (searchFn q)

/-- C7 counterexample: the pair (query "x", empty-string location) and the
pair (query "x", absent location) are distinct inputs but produce the same
cache key, because an empty location string is falsy. -/
theorem C7_counterexample :
    (("x", some "") : String × Option String) ≠ ("x", none)
    ∧ getCacheKey "x" (some "") = getCacheKey "x" none := by decide

/-- C7 amended: `getCacheKey` is injective only on safe pairs — queries
containing no ':' and locations that, when present, are nonempty; the
excluded pairs (empty-string location vs absent, or ':' inside the query)
do collide, as the counterexample shows. -/
theorem C7_cacheKey_injective_on_safe_pairs (q1 q2 : String) (l1 l2 : Option String)
    (hq1 : ':' ∉ q1.data) (hq2 : ':' ∉ q2.data)
    (hl1 : ∀ s, l1 = some s → s ≠ "") (hl2 : ∀ s, l2 = some s → s ≠ "")
    (h : getCacheKey q1 l1 = getCacheKey q2 l2) : q1 = q2 ∧ l1 = l2 := by
  cases l1 with
  | none =>
    cases l2 with
    | none => exact ⟨h, rfl⟩
    | some s2 =>
      exfalso
      have hs2 : s2 ≠ "" := hl2 s2 rfl
      rw [getCacheKey_none, getCacheKey_some q2 s2 hs2] at h
      have hdata := congrArg String.data h
      rw [colonKey_data] at hdata
      exact hq1 (hdata ▸ (by simp : ':' ∈ q2.data ++ ':' :: s2.data))
  | some s1 =>
    have hs1 : s1 ≠ "" := hl1 s1 rfl
    cases l2 with
    | none =>
      exfalso
      rw [getCacheKey_none, getCacheKey_some q1 s1 hs1] at h
      have hdata := congrArg String.data h
      rw [colonKey_data] at hdata
      exact hq2 (hdata ▸ (by simp : ':' ∈ q1.data ++ ':' :: s1.data))
    | some s2 =>
      have hs2 : s2 ≠ "" := hl2 s2 rfl
      rw [getCacheKey_some q1 s1 hs1, getCacheKey_some q2 s2 hs2] at h
      have hdata := congrArg String.data h
      rw [colonKey_data, colonKey_data] at hdata
      obtain ⟨hq, hs⟩ := colon_split q1.data q2.data s1.data s2.data hq1 hq2 hdata
      exact ⟨String.ext hq, congrArg some (String.ext hs)⟩

/-- C7 witness: the restricted injectivity applies to a concrete safe
pair. -/
theorem C7_witness : ("a" : String) = "a" ∧ (some "b" : Option String) = some "b" :=
  C7_cacheKey_injective_on_safe_pairs "a" "a" (some "b") (some "b") (by decide) (by decide)
    (by intro s hs; cases hs; decide) (by intro s hs; cases hs; decide) rfl

/-- C8 counterexample: `getJobsByLocation("bern")` on a record whose
matching "Bern" location is invalid (NaN coordinates) but whose valid
location is in Basel returns a DisplayJob whose `location` field does not
contain "bern". -/
theorem C8_counterexample :
    ¬ ∀ t ∈ getJobsByLocation [c8Job] "bern" none 0,
        strIncludes (jsToLower t.location) (jsToLower "bern") = true := by decide

/-- C8 amended: the location filter is record-level — every DisplayJob
returned by `getJobsByLocation` originates from a record having at least
one location whose city or address case-insensitively contains the
searched name — but the individual DisplayJob's own `location` field need
not contain it. -/
theorem C8_returned_jobs_from_matching_records (jobs : List Job) (locationName : String)
    (limit : Option Nat) (offset : Nat) (t : TransformedJob)
    (ht : t ∈ getJobsByLocation jobs locationName limit offset) :
    ∃ job ∈ jobs, jobMatchesLocation (jsToLower locationName) job = true
      ∧ t.originalId = job.id := by
  unfold getJobsByLocation at ht
  rcases transform_origin _ offset limit t ht with ⟨j, hj, hid⟩
  have hmem := List.mem_filter.mp hj
  exact ⟨j, hmem.1, hmem.2, hid⟩

/-- C8 witness: the record-level property applied to the concrete Basel
DisplayJob returned for the "bern" query. -/
theorem C8_witness :
    c8Out ∈ getJobsByLocation [c8Job] "bern" none 0
    ∧ ∃ job ∈ [c8Job], jobMatchesLocation (jsToLower "bern") job = true
        ∧ c8Out.originalId = job.id :=
  ⟨by decide,
   C8_returned_jobs_from_matching_records [c8Job] "bern" none 0 c8Out (by decide)⟩

/-- C9: decoding a search-document id with `split('_')[0]` recovers the
original record id exactly when the record id contains no underscore; a
record id containing '_' always decodes to a different string, so its
search hits resolve against the wrong id. -/
theorem C9_docid_roundtrip (jobId : String) (index : Nat) :
    docIdToOriginalId (searchDocId jobId index) = jobId ↔ ('_' ∉ jobId.data) := by
  have hdata : (searchDocId jobId index).data
      = jobId.data ++ '_' :: (decimalRepr index).data := underscoreKey_data _ _
  constructor
  · intro h
    by_contra hmem
    have hwit : ∃ c ∈ jobId.data, (c != '_') = false := ⟨'_', hmem, by decide⟩
    have h1 : (searchDocId jobId index).data.takeWhile (fun c => c != '_')
        = jobId.data.takeWhile (fun c => c != '_') := by
      rw [hdata]
      exact takeWhile_append_of_mem _ _ hwit
    have h2 := takeWhile_ne_self_of_mem jobId.data hwit
    apply h2
    have hd := congrArg String.data h
    have hd2 : (searchDocId jobId index).data.takeWhile (fun c => c != '_')
        = jobId.data := hd
    rw [h1] at hd2
    exact hd2
  · intro hmem
    apply String.ext
    show (searchDocId jobId index).data.takeWhile (fun c => c != '_') = jobId.data
    have hall : ∀ c ∈ jobId.data, (c != '_') = true := by
      intro c hc
      have : c ≠ '_' := fun hl => hmem (hl ▸ hc)
      simpa using this
    rw [hdata, takeWhile_append_of_all _ _ hall]
    simp [List.takeWhile_cons]

/-- C9 witness: the round trip succeeds on an underscore-free id and fails
on an id containing an underscore. -/
theorem C9_witness :
    docIdToOriginalId (searchDocId "ab" 3) = "ab"
    ∧ docIdToOriginalId (searchDocId "a_b" 3) ≠ "a_b" :=
  ⟨(C9_docid_roundtrip "ab" 3).mpr (by decide),
   fun h => absurd ((C9_docid_roundtrip "a_b" 3).mp h) (by decide)⟩

/-- C5 counterexample: plain `searchJobs` builds its cache key from the
raw query, so " Java " and "java" use different cache entries and the
second call runs a second index query instead of hitting the cache. -/
theorem C5_counterexample :
    getCacheKey " Java " none ≠ getCacheKey "java" none
    ∧ (searchJobs noHitsSearchFn
        (searchJobs noHitsSearchFn emptySearchState " Java " none 0 0).state
        "java" none 0 1).queriedIndex = true := by decide

/-- C5 amended: `searchJobsOptimized` (not plain `searchJobs`) trims and
lower-cases the query before the index lookup and the cache key, so any
two queries with the same nonempty normalization — e.g. " Java " and
"java" — read and write the same cache entry, and the second no-limit
call is served from the cache without a second index query. -/
theorem C5_optimized_normalized_cache (allJobs : List Job) (searchFn : String → List Job)
    (q1 q2 : String) (off2 now1 now2 : Nat)
    (hq : jsToLower (jsTrim q1) = jsToLower (jsTrim q2))
    (hne : jsToLower (jsTrim q2) ≠ "")
    (hts : now2 - now1 < CACHE_TTL) :
    (searchJobsOptimized allJobs searchFn
        (searchJobsOptimized allJobs searchFn emptySearchState q1 none 0 now1).state
        q2 none off2 now2).queriedIndex = false
    ∧ (searchJobsOptimized allJobs searchFn
        (searchJobsOptimized allJobs searchFn emptySearchState q1 none 0 now1).state
        q2 none off2 now2).jobs
      = (transformJobsToTransformedJobs (searchFn (jsToLower (jsTrim q2))) 0 none).drop
          off2 := by
  have hne1 : jsToLower (jsTrim q1) ≠ "" := by rw [hq]; exact hne
  rw [optimized_fresh_state allJobs searchFn q1 now1 hne1]
  dsimp only
  rw [hq, optimized_cached_hit allJobs searchFn q2 _ now1 off2 now2 hne hts]
  refine ⟨rfl, ?_⟩
  dsimp only
  apply List.take_of_length_le
  calc (List.drop off2 (transformJobsToTransformedJobs
          (searchFn (jsToLower (jsTrim q2))) 0 none)).length
      ≤ (transformJobsToTransformedJobs (searchFn (jsToLower (jsTrim q2))) 0 none).length :=
        by rw [List.length_drop]; omega
    _ = _ := rfl

/-- C5 witness: the normalized-cache behavior at the concrete queries
" Java " then "java". -/
theorem C5_witness :
    (searchJobsOptimized [] noHitsSearchFn
        (searchJobsOptimized [] noHitsSearchFn emptySearchState " Java " none 0 0).state
        "java" none 0 1).queriedIndex = false
    ∧ (searchJobsOptimized [] noHitsSearchFn
        (searchJobsOptimized [] noHitsSearchFn emptySearchState " Java " none 0 0).state
        "java" none 0 1).jobs
      = (transformJobsToTransformedJobs (noHitsSearchFn (jsToLower (jsTrim "java"))) 0
          none).drop 0 :=
  C5_optimized_normalized_cache [] noHitsSearchFn " Java " "java" 0 0 1 (by decide)
    (by decide) (by decide)

/-- C6 counterexample: a first `searchJobs` call made with limit 50 caches
nothing (the state stays empty), so the follow-up call at offset 50 runs
the index query again instead of being answered from the cache. -/
theorem C6_counterexample :
    (searchJobs oneJobSearchFn emptySearchState "java" (some 50) 0 0).state = emptySearchState
    ∧ (searchJobs oneJobSearchFn
        (searchJobs oneJobSearchFn emptySearchState "java" (some 50) 0 0).state
        "java" (some 50) 50 1).queriedIndex = true := by decide

/-- C6 amended: the result cache stores the full unpaginated DisplayJob
list only for searches made without a limit; after such a no-limit first
search, a second search for the same key at any offset and limit is
served from the cache — pagination applied on top — without a new index
query. -/
theorem C6_cache_stores_full_results (searchFn : String → List Job) (q : String)
    (lim2 : Option Nat) (off2 now1 now2 : Nat) (hts : now2 - now1 < CACHE_TTL) :
    (searchJobs searchFn (searchJobs searchFn emptySearchState q none 0 now1).state
        q lim2 off2 now2).queriedIndex = false
    ∧ (searchJobs searchFn (searchJobs searchFn emptySearchState q none 0 now1).state
        q lim2 off2 now2).jobs
      = paginate (transformJobsToTransformedJobs (searchFn q) 0 none) lim2 off2 := by
  rw [searchJobs_fresh searchFn q 0 now1]
  dsimp only
  rw [searchJobs_hit searchFn q lim2 off2 now2 _ now1 hts]
  exact ⟨rfl, rfl⟩

/-- C6 witness: the cached-full-results behavior at a concrete first
no-limit search followed by a page-2 request. -/
theorem C6_witness :
    (searchJobs noHitsSearchFn (searchJobs noHitsSearchFn emptySearchState "java" none 0 0).state
        "java" (some 50) 50 1).queriedIndex = false
    ∧ (searchJobs noHitsSearchFn (searchJobs noHitsSearchFn emptySearchState "java" none 0 0).state
        "java" (some 50) 50 1).jobs
      = paginate (transformJobsToTransformedJobs (noHitsSearchFn "java") 0 none) (some 50) 50 :=
  C6_cache_stores_full_results noHitsSearchFn "java" (some 50) 50 0 1 (by decide)

/-- C10: a failed first load is memoized: the rejected promise stays in
`dataLoadPromise`, every later `loadJobsData()`/`init()` replays the same
error without a new fetch (fetch count stays 1), and only `close()`
resets the memo so the next call fetches again. -/
theorem C10_failed_load_memoized (e : String) (f2 : Except String Unit) :
    loadJobsData (Except.error e) freshLoadState
        = (Except.error e, ⟨some (Except.error e), false, 1⟩)
    ∧ loadJobsData f2 ⟨some (Except.error e), false, 1⟩
        = (Except.error e, ⟨some (Except.error e), false, 1⟩)
    ∧ initService f2 ⟨some (Except.error e), false, 1⟩
        = (Except.error e, ⟨some (Except.error e), false, 1⟩)
    ∧ closeService ⟨some (Except.error e), false, 1⟩ = ⟨none, false, 1⟩
    ∧ loadJobsData f2 ⟨none, false, 1⟩ = (f2, ⟨some f2, false, 2⟩) :=
  ⟨rfl, rfl, rfl, rfl, rfl⟩

end JobBoard
